import Mathlib

/-!
Verification of the response-streaming bridge of the Zeeeepa/point repository.

The development shallowly embeds the Go sources of the web_claude and
web_copilot adapters:

* `monitorResponseStream` embeds
  chatgpt-adapter-main/relay/llm/web_claude/browser.go, monitorResponseStream
  (lines 436-498): the DOM polling loop that turns scraped page state into
  callback events `(text, done)`.
* `handleEvents` / `handleStreamingResponse` embed
  chatgpt-adapter-main/relay/llm/web_claude/adapter.go, handleStreamingResponse
  (lines 172-282): the SSE framing loop that turns callback events into
  OpenAI-style stream envelopes.
* `generateCookieKey` / `getOrCreateClient` embed adapter.go lines 89-135.
* `formatPrompt` embeds the ClaudeClient's formatPrompt (client file,
  lines 329-356).
* `extractSuggestion` embeds web_copilot/browser.go lines 362-419.
* A small lock transition system embeds the per-client mutex discipline of
  ClaudeClient.StreamMessage / CopilotClient.StreamCompletion.

Go strings are modelled as `List Char`; Go `nil`-able evaluate results as
`Option`; fallible calls as `Except` or `Option` error slots.
-/

/-- Go strings, modelled as character lists. -/
abbrev GoStr := List Char

/-- Embeds Go's strings.TrimPrefix(s, pre): returns s without the provided
leading prefix string; s is returned unchanged if it does not start with pre. -/
def trimPrefixOf (s pre : GoStr) : GoStr :=
  if pre.isPrefixOf s then s.drop pre.length else s

/-- One iteration's worth of DOM samples consumed by the polling loop in
monitorResponseStream (browser.go lines 443-496).  `text` is the result of
extractLatestResponse at the top of the iteration (none = extraction error);
`busy` is the typing-indicator count check, as a boolean count > 0
(none = query error); `busy2` is the re-check after the 1s confirmation delay
(used only when `busy` is false); `finalText` is the settle re-extraction
(browser.go line 485, used only when both checks read not-busy;
none = extraction error). -/
structure Poll where
  text : Option GoStr
  busy : Option Bool
  busy2 : Option Bool
  finalText : Option GoStr
deriving DecidableEq, Repr

/-- Embeds monitorResponseStream (browser.go lines 436-498) as a function from
the list of per-iteration DOM samples to the list of callback events
`(content, done)` it fires.  The first argument is the `lastResponse` mutable
local (starts empty).  Exhausting the sample list models the 120s deadline
firing at the top of the loop: the code then calls `callback("", true)` and
returns a timeout error.  An extraction error (`text = none`) makes the loop
`continue`; an indicator query error (`busy`/`busy2` = none) makes the
function return an error without any done callback. -/
def monitorResponseStream : GoStr → List Poll → List (GoStr × Bool)
  | _, [] => [([], true)]
  | last, p :: rest =>
    match p.text with
    | none => monitorResponseStream last rest
    | some t =>
      let last1 := if t ≠ last then t else last
      (if t ≠ last then [(t, false)] else []) ++
      match p.busy with
      | none => []
      | some true => monitorResponseStream last1 rest
      | some false =>
        match p.busy2 with
        | none => []
        | some true => monitorResponseStream last1 rest
        | some false =>
          match p.finalText with
          | some t2 => if t2 ≠ last1 then [(t2, true)] else [([], true)]
          | none => [([], true)]

/-- One outbound SSE unit written by handleStreamingResponse: the initial
role-announcement chunk (adapter.go lines 198-216), a content-delta chunk
(lines 229-248), the terminal chunk with an empty delta and a finish reason
(lines 252-267), or the final stream sentinel written as the literal
`data: [DONE]` frame (line 268). -/
inductive Envelope where
  | role
  | content (delta : GoStr)
  | finish (reason : GoStr)
  | doneMark
deriving DecidableEq, Repr

/-- Embeds the select loop of handleStreamingResponse (adapter.go lines
218-281) applied to the ordered callback events of one generation.  The first
argument is the `lastContent` mutable local (starts empty).  A `(c, false)`
event arrives on responseCh and yields a content chunk whose delta is
strings.TrimPrefix(c, lastContent), after which lastContent := c; the first
`(_, true)` event arrives on doneCh and yields the terminal chunk followed by
the [DONE] sentinel, and the handler returns (its content, if any, is
discarded by the callback at lines 185-191).  An empty event list models a
run in which the done signal never fires (the handler is still blocked or
took the error/cancellation branch): no further envelopes are produced. -/
def handleEvents : GoStr → List (GoStr × Bool) → List Envelope
  | _, [] => []
  | _, (_, true) :: _ => [Envelope.finish "stop".toList, Envelope.doneMark]
  | last, (c, false) :: rest =>
    Envelope.content (trimPrefixOf c last) :: handleEvents c rest

/-- Embeds handleStreamingResponse (adapter.go lines 172-282): the role
chunk is written unconditionally before the select loop starts. -/
def handleStreamingResponse (events : List (GoStr × Bool)) : List Envelope :=
  Envelope.role :: handleEvents [] events

/-- The composed streaming pipeline: DOM samples through the monitor's
callback into the SSE framing loop, as wired up by
ClaudeClient.StreamMessage / the goroutine at adapter.go lines 184-195. -/
def streamPipeline (polls : List Poll) : List Envelope :=
  handleStreamingResponse (monitorResponseStream [] polls)

/-- The content deltas of an envelope trace, in order. -/
def contentDeltas (out : List Envelope) : List GoStr :=
  out.filterMap fun e =>
    match e with
    | Envelope.content d => some d
    | _ => none

/-! ## Client pool (adapter.go lines 89-135, mirrored in the web_copilot
adapter) -/

/-- A pooled browser client handle.  The Go value is a pointer to a
ClaudeClient/CopilotClient; only its identity matters here. -/
abbrev Client := Nat

/-- Embeds generateCookieKey (web_claude adapter.go lines 124-135): the cookie
map is modelled as a list of name/value pairs.  The function collects the
cookie names and then ignores them, keying only on the number of cookies. -/
def generateCookieKey (cookies : List (GoStr × GoStr)) : GoStr :=
  "claude_cookies_".toList ++ (toString cookies.length).toList

/-- Result of one getOrCreateClient call: the pool afterwards, the returned
client or error, and the clients on which Close was called during the call. -/
structure GetOrCreateResult where
  pool : List (GoStr × Client)
  result : Except GoStr Client
  closed : List Client
deriving Repr

/-- Embeds getOrCreateClient (web_claude adapter.go lines 89-122).  The pool
map is an association list keyed by generateCookieKey.  `fresh` is the client
NewClaudeClient would build; `createErr` models NewClaudeClient failing
(returned before anything to close exists); `initErr` models
client.Initialize failing, in which case the code calls client.Close() and
returns the error without storing anything. -/
def getOrCreateClient (pool : List (GoStr × Client))
    (cookies : List (GoStr × GoStr)) (fresh : Client)
    (createErr initErr : Option GoStr) : GetOrCreateResult :=
  let cookieKey := generateCookieKey cookies
  match List.lookup cookieKey pool with
  | some client => ⟨pool, Except.ok client, []⟩
  | none =>
    match createErr with
    | some e => ⟨pool, Except.error e, []⟩
    | none =>
      match initErr with
      | some e => ⟨pool, Except.error e, [fresh]⟩
      | none => ⟨(cookieKey, fresh) :: pool, Except.ok fresh, []⟩

/-! ## Prompt formatting (ClaudeClient.formatPrompt, client file lines
329-356) -/

/-- One chat message, as in the ClaudeClient Message struct. -/
structure Message where
  role : GoStr
  content : GoStr
deriving DecidableEq, Repr

/-- Embeds the message loop of formatPrompt (lines 334-344): one pass over the
messages accumulating the system prompt (each system message overwrites the
previous value, so the last one wins) and the user prompts in order; assistant
and unknown roles are skipped. -/
def collectPrompts : List Message → GoStr → List GoStr → GoStr × List GoStr
  | [], sys, users => (sys, users)
  | m :: rest, sys, users =>
    if m.role = "system".toList then collectPrompts rest m.content users
    else if m.role = "user".toList then
      collectPrompts rest sys (users ++ [m.content])
    else collectPrompts rest sys users

/-- Embeds formatPrompt (lines 329-356): a "System: " header is prepended only
when the accumulated system prompt is non-empty, then the user prompts are
joined with blank lines (strings.Join with separator two newlines, modelled
by List.intercalate). -/
def formatPrompt (messages : List Message) : GoStr :=
  let sp := collectPrompts messages [] []
  let head := if sp.1 ≠ [] then "System: ".toList ++ sp.1 ++ "\n\n".toList else []
  if sp.2 ≠ [] then head ++ List.intercalate "\n\n".toList sp.2 else head

/-! ## Copilot suggestion extraction (web_copilot/browser.go lines 362-419) -/

/-- Embeds extractSuggestion (web_copilot/browser.go lines 362-419).  `ghost`
is the result of the ghost-text page.Evaluate call (error, or a possibly-nil
string value); `inl` the accept-inline-suggestion Evaluate call.  A non-nil,
non-empty ghost text wins; otherwise a non-nil, non-empty inline diff;
otherwise the literal placeholder is returned with a nil error. -/
def extractSuggestion (ghost inl : Except GoStr (Option GoStr)) :
    Except GoStr GoStr :=
  match ghost with
  | Except.error e => Except.error ("failed to extract ghost text: ".toList ++ e)
  | Except.ok g =>
    if g.getD [] ≠ [] then Except.ok (g.getD [])
    else
      match inl with
      | Except.error e =>
        Except.error ("failed to extract inline suggestion: ".toList ++ e)
      | Except.ok i =>
        if i.getD [] ≠ [] then Except.ok (i.getD [])
        else Except.ok "No suggestion available".toList

/-- Embeds the tail of SendCodeContext (web_copilot/browser.go lines 296-306):
whatever extractSuggestion returns without error is delivered to the caller as
the successful suggestion. -/
def sendCodeContext (ghost inl : Except GoStr (Option GoStr)) :
    Except GoStr GoStr :=
  match extractSuggestion ghost inl with
  | Except.error e => Except.error e
  | Except.ok suggestion => Except.ok suggestion

/-! ## Per-client mutex discipline (ClaudeClient.StreamMessage, client file
lines 308-327; CopilotClient.StreamCompletion, copilot_client.go lines
242-257) -/

/-- Progress of one request through StreamMessage/StreamCompletion on a shared
client: `idle` is before `c.mu.Lock()`; `submitting` covers prompt injection
and the send keypress inside StreamResponse; `monitoring` covers
monitorResponseStream through settle; `finished` is after the deferred
`c.mu.Unlock()` has run. -/
inductive ReqPhase where
  | idle
  | submitting
  | monitoring
  | finished
deriving DecidableEq, Repr

/-- A request is in its critical section from successful mu.Lock() until the
deferred mu.Unlock(): its entire submit-through-settle cycle. -/
def inCritical : ReqPhase → Bool
  | ReqPhase.submitting => true
  | ReqPhase.monitoring => true
  | _ => false

/-- Two concurrent requests working on the same pooled client (same cookie
fingerprint), plus the state of that client's sync.Mutex `c.mu`. -/
structure MuState where
  phase0 : ReqPhase
  phase1 : ReqPhase
  holder : Option (Fin 2)
deriving DecidableEq, Repr

/-- Interleaving semantics of the two StreamMessage calls.  mu.Lock() only
succeeds while no one holds the mutex; the submit-to-monitor transition keeps
the lock; the deferred mu.Unlock() releases it on return. -/
inductive MuStep : MuState → MuState → Prop where
  | lock0 (s : MuState) (h : s.holder = none) (hp : s.phase0 = ReqPhase.idle) :
      MuStep s { s with phase0 := ReqPhase.submitting, holder := some 0 }
  | lock1 (s : MuState) (h : s.holder = none) (hp : s.phase1 = ReqPhase.idle) :
      MuStep s { s with phase1 := ReqPhase.submitting, holder := some 1 }
  | submit0 (s : MuState) (hp : s.phase0 = ReqPhase.submitting) :
      MuStep s { s with phase0 := ReqPhase.monitoring }
  | submit1 (s : MuState) (hp : s.phase1 = ReqPhase.submitting) :
      MuStep s { s with phase1 := ReqPhase.monitoring }
  | unlock0 (s : MuState) (hp : s.phase0 = ReqPhase.monitoring) :
      MuStep s { s with phase0 := ReqPhase.finished, holder := none }
  | unlock1 (s : MuState) (hp : s.phase1 = ReqPhase.monitoring) :
      MuStep s { s with phase1 := ReqPhase.finished, holder := none }

/-- Both requests start before their mu.Lock() call, with the mutex free. -/
def muInit : MuState := ⟨ReqPhase.idle, ReqPhase.idle, none⟩

/-- States reachable by interleaving the two requests. -/
def muReachable (s : MuState) : Prop := Relation.ReflTransGen MuStep muInit s

/-- Lock-ownership invariant of the two-request system: a request inside its
critical section holds the client's mutex. -/
def muInv (s : MuState) : Prop :=
  (inCritical s.phase0 = true → s.holder = some 0) ∧
  (inCritical s.phase1 = true → s.holder = some 1)

/-- Shape invariant of the callback-event lists monitorResponseStream can
produce, relative to the last emitted text `prev`: every non-final event
carries a non-empty text that differs from the previously emitted one, and a
final (done) event ends the list.  The empty list covers the error returns
that fire no done callback. -/
inductive EventChain : GoStr → List (GoStr × Bool) → Prop where
  | nil (prev : GoStr) : EventChain prev []
  | done (prev c : GoStr) : EventChain prev [(c, true)]
  | cons (prev c : GoStr) (rest : List (GoStr × Bool)) (hne : c ≠ [])
      (hdiff : c ≠ prev) (hrest : EventChain c rest) :
      EventChain prev ((c, false) :: rest)

/-! ## Theorems -/

/-- Sanity check: the scenario from the spec, section 8 — observations
"Hello", "Hello, wor", "Hello, world" with a clean settle produce the deltas
"Hello", ", wor", "ld" and a properly framed stream. -/
example : streamPipeline
    [⟨some "Hello".toList, some true, none, none⟩,
     ⟨some "Hello, wor".toList, some true, none, none⟩,
     ⟨some "Hello, world".toList, some false, some false,
       some "Hello, world".toList⟩] =
    [Envelope.role, Envelope.content "Hello".toList,
      Envelope.content ", wor".toList, Envelope.content "ld".toList,
      Envelope.finish "stop".toList, Envelope.doneMark] := by decide

/-- C5: generateCookieKey depends only on the number of cookie entries, so two
entirely different credential sets of equal size get the same pool key, and a
pool lookup for the second set returns the client created and cached for the
first set. -/
theorem c5_cookie_key_collision (c1 c2 : List (GoStr × GoStr))
    (pool : List (GoStr × Client)) (fresh fresh2 : Client)
    (createErr initErr : Option GoStr)
    (hlen : c1.length = c2.length)
    (hmiss : List.lookup (generateCookieKey c1) pool = none) :
    generateCookieKey c1 = generateCookieKey c2 ∧
    (getOrCreateClient (getOrCreateClient pool c1 fresh none none).pool
        c2 fresh2 createErr initErr).result = Except.ok fresh := by
  have hkey : generateCookieKey c1 = generateCookieKey c2 := by
    simp [generateCookieKey, hlen]
  refine ⟨hkey, ?_⟩
  simp only [getOrCreateClient, hmiss]
  rw [← hkey]
  simp [List.lookup]

/-- C5 witness: two disjoint single-cookie credential sets collide in the
pool; the second request receives the first request's client. -/
theorem c5_cookie_key_collision_witness :
    generateCookieKey [("a".toList, "1".toList)] =
      generateCookieKey [("b".toList, "2".toList)] ∧
    (getOrCreateClient
        (getOrCreateClient [] [("a".toList, "1".toList)] 7 none none).pool
        [("b".toList, "2".toList)] 8 none none).result = Except.ok 7 :=
  c5_cookie_key_collision [("a".toList, "1".toList)] [("b".toList, "2".toList)]
    [] 7 8 none none (by decide) (by decide)

/-- C6: when client.Initialize fails, getOrCreateClient closes the
partially-built client, returns the error, and leaves the pool unchanged; in
particular the cookie key is still absent from the pool afterwards, so a
later request with the same key attempts a fresh initialization. -/
theorem c6_failed_init_not_cached (pool : List (GoStr × Client))
    (cookies : List (GoStr × GoStr)) (fresh : Client) (e : GoStr)
    (hmiss : List.lookup (generateCookieKey cookies) pool = none) :
    getOrCreateClient pool cookies fresh none (some e) =
      ⟨pool, Except.error e, [fresh]⟩ ∧
    List.lookup (generateCookieKey cookies)
      (getOrCreateClient pool cookies fresh none (some e)).pool = none := by
  constructor
  · simp [getOrCreateClient, hmiss]
  · simp [getOrCreateClient, hmiss]

/-- C6 witness: a failed initialization for a concrete cookie set leaves an
empty pool empty, reports the error, and closes the fresh client. -/
theorem c6_failed_init_not_cached_witness :
    getOrCreateClient [] [("a".toList, "1".toList)] 7 none (some "boom".toList) =
      ⟨[], Except.error "boom".toList, [7]⟩ ∧
    List.lookup (generateCookieKey [("a".toList, "1".toList)])
      (getOrCreateClient [] [("a".toList, "1".toList)] 7 none
        (some "boom".toList)).pool = none :=
  c6_failed_init_not_cached [] [("a".toList, "1".toList)] 7 "boom".toList
    (by decide)

/-- C10: when neither the ghost-text element nor the accept-inline-suggestion
path yields a non-empty string, extractSuggestion returns the literal
placeholder "No suggestion available" with a nil error, and SendCodeContext
delivers it as a successful completion. -/
theorem c10_placeholder_suggestion (g i : Option GoStr)
    (hg : g.getD [] = []) (hi : i.getD [] = []) :
    extractSuggestion (Except.ok g) (Except.ok i) =
      Except.ok "No suggestion available".toList ∧
    sendCodeContext (Except.ok g) (Except.ok i) =
      Except.ok "No suggestion available".toList := by
  have h1 : extractSuggestion (Except.ok g) (Except.ok i) =
      Except.ok "No suggestion available".toList := by
    simp [extractSuggestion, hg, hi]
  exact ⟨h1, by simp [sendCodeContext, h1]⟩

/-- C10 witness: a nil ghost text and an empty inline diff produce the
placeholder as a successful result. -/
theorem c10_placeholder_suggestion_witness :
    extractSuggestion (Except.ok none) (Except.ok (some [])) =
      Except.ok "No suggestion available".toList ∧
    sendCodeContext (Except.ok none) (Except.ok (some [])) =
      Except.ok "No suggestion available".toList :=
  c10_placeholder_suggestion none (some []) (by decide) (by decide)

/-- C2: when the previously emitted full text is not a prefix of the new full
text, the select loop emits a single corrective content chunk whose delta is
the entire new full text (strings.TrimPrefix returns its input unchanged),
resets lastContent to the new full text for the rest of the stream, and the
delta has the full new length — no crash, no negative-length delta. -/
theorem c2_divergence_corrective (last c : GoStr) (rest : List (GoStr × Bool))
    (h : last.isPrefixOf c = false) :
    handleEvents last ((c, false) :: rest) =
      Envelope.content c :: handleEvents c rest ∧
    trimPrefixOf c last = c ∧
    (trimPrefixOf c last).length = c.length := by
  have ht : trimPrefixOf c last = c := by simp [trimPrefixOf, h]
  exact ⟨by simp [handleEvents, ht], ht, by rw [ht]⟩

/-- C2 witness: previous text "ABC", diverging new text "XY" — one corrective
chunk carrying "XY", baseline reset to "XY". -/
theorem c2_divergence_corrective_witness :
    handleEvents "ABC".toList [("XY".toList, false)] =
      Envelope.content "XY".toList :: handleEvents "XY".toList [] ∧
    trimPrefixOf "XY".toList "ABC".toList = "XY".toList ∧
    (trimPrefixOf "XY".toList "ABC".toList).length = "XY".toList.length :=
  c2_divergence_corrective "ABC".toList "XY".toList [] (by decide)

/-- C1 (code bug): the observed texts form a prefix chain ("" then "AB" then
"ABC", no divergence), the monitor's settle check finds the new text "ABC"
and fires the done callback carrying it (browser.go line 487), but the
handler's callback discards the content of any done callback
(adapter.go lines 186-189), so the emitted content deltas concatenate to
"AB", not to the last observation's full text "ABC": the suffix first
observed on the final (done) observation is never delivered. -/
theorem c1_final_observation_text_dropped :
    ([].isPrefixOf "AB".toList = true ∧
      "AB".toList.isPrefixOf "ABC".toList = true) ∧
    monitorResponseStream []
        [⟨some "AB".toList, some true, none, none⟩,
         ⟨some "AB".toList, some false, some false, some "ABC".toList⟩] =
      [("AB".toList, false), ("ABC".toList, true)] ∧
    streamPipeline
        [⟨some "AB".toList, some true, none, none⟩,
         ⟨some "AB".toList, some false, some false, some "ABC".toList⟩] =
      [Envelope.role, Envelope.content "AB".toList,
        Envelope.finish "stop".toList, Envelope.doneMark] ∧
    (contentDeltas (streamPipeline
        [⟨some "AB".toList, some true, none, none⟩,
         ⟨some "AB".toList, some false, some false,
           some "ABC".toList⟩])).flatten = "AB".toList ∧
    "AB".toList ≠ "ABC".toList := by decide

/-- C4 (code bug): a run whose busy indicator never clears before the overall
deadline produces exactly the same envelope trace — content chunks, a
terminal chunk with finish reason "stop", and the [DONE] sentinel — as a
clean completion of the same text: the timeout error returned by
monitorResponseStream reaches errCh only after the handler has already
consumed the done callback and returned, so the caller is never told the
stream timed out. -/
theorem c4_timeout_looks_like_clean_stop :
    streamPipeline [⟨some "AB".toList, some true, none, none⟩] =
      streamPipeline
        [⟨some "AB".toList, some false, some false, some "AB".toList⟩] ∧
    streamPipeline [⟨some "AB".toList, some true, none, none⟩] =
      [Envelope.role, Envelope.content "AB".toList,
        Envelope.finish "stop".toList, Envelope.doneMark] := by decide

/-- Helper for C3: once a done event is in the event list, the select loop's
remaining output is content chunks followed by exactly the terminal chunk and
the [DONE] sentinel, whatever the current lastContent is. -/
theorem handleEvents_terminal_shape (events : List (GoStr × Bool)) :
    ∀ last : GoStr, (∃ e ∈ events, e.2 = true) →
      ∃ ds : List GoStr, handleEvents last events =
        ds.map Envelope.content ++
          [Envelope.finish "stop".toList, Envelope.doneMark] := by
  induction events with
  | nil => intro last h; simp at h
  | cons e rest ih =>
    intro last h
    obtain ⟨c, b⟩ := e
    cases b with
    | true => exact ⟨[], by simp [handleEvents]⟩
    | false =>
      have h2 : ∃ x ∈ rest, x.2 = true := by
        rcases h with ⟨x, hx, hx2⟩
        rcases List.mem_cons.mp hx with h3 | h3
        · rw [h3] at hx2; simp at hx2
        · exact ⟨x, h3, hx2⟩
      obtain ⟨ds, hds⟩ := ih c h2
      exact ⟨trimPrefixOf c last :: ds, by simp [handleEvents, hds]⟩

/-- C3: for every streaming run in which the done signal fires (normal settle
or deadline), the emitted envelope sequence is exactly one role chunk first,
then zero or more content chunks, then exactly one terminal chunk with a
finish reason, then the [DONE] sentinel — no role or terminal chunk anywhere
else. -/
theorem c3_stream_lifecycle (polls : List Poll)
    (h : ∃ e ∈ monitorResponseStream [] polls, e.2 = true) :
    ∃ ds : List GoStr, streamPipeline polls =
      Envelope.role :: (ds.map Envelope.content ++
        [Envelope.finish "stop".toList, Envelope.doneMark]) := by
  obtain ⟨ds, hds⟩ := handleEvents_terminal_shape _ [] h
  exact ⟨ds, by simp [streamPipeline, handleStreamingResponse, hds]⟩

/-- C3 witness: a concrete completed run is framed as role chunk, content
chunks, terminal chunk, [DONE]. -/
theorem c3_stream_lifecycle_witness :
    ∃ ds : List GoStr,
      streamPipeline [⟨some "Hi".toList, some false, some false,
          some "Hi".toList⟩] =
        Envelope.role :: (ds.map Envelope.content ++
          [Envelope.finish "stop".toList, Envelope.doneMark]) :=
  c3_stream_lifecycle
    [⟨some "Hi".toList, some false, some false, some "Hi".toList⟩] (by decide)


/-- Helper for C7: one step of the formatPrompt message loop, as an explicit
equation. -/
theorem collectPrompts_cons (m : Message) (rest : List Message) (sys : GoStr)
    (users : List GoStr) :
    collectPrompts (m :: rest) sys users =
      if m.role = "system".toList then collectPrompts rest m.content users
      else if m.role = "user".toList then
        collectPrompts rest sys (users ++ [m.content])
      else collectPrompts rest sys users := rfl

/-- Helper for C7: messages whose role is neither "system" nor "user" —
assistant messages in particular — fall through the loop without touching
either accumulator, so filtering them out does not change the collected
prompts. -/
theorem collectPrompts_filter_assistant (msgs : List Message) :
    ∀ (sys : GoStr) (users : List GoStr),
      collectPrompts (msgs.filter fun m => m.role != "assistant".toList)
        sys users = collectPrompts msgs sys users := by
  induction msgs with
  | nil => intro sys users; rfl
  | cons m rest ih =>
    intro sys users
    by_cases ha : m.role = "assistant".toList
    · have hpm : (m.role != "assistant".toList) = false := by
        rw [ha, bne_self_eq_false]
      have h1 : m.role ≠ "system".toList := by rw [ha]; decide
      have h2 : m.role ≠ "user".toList := by rw [ha]; decide
      simp only [List.filter_cons]
      rw [hpm]
      simp only [Bool.false_eq_true, if_false]
      rw [collectPrompts_cons, if_neg h1, if_neg h2, ih]
    · have hpm : (m.role != "assistant".toList) = true := bne_iff_ne.mpr ha
      simp only [List.filter_cons]
      rw [hpm]
      simp only [if_true]
      rw [collectPrompts_cons, collectPrompts_cons]
      by_cases h1 : m.role = "system".toList
      · rw [if_pos h1, if_pos h1, ih]
      · rw [if_neg h1, if_neg h1]
        by_cases h2 : m.role = "user".toList
        · rw [if_pos h2, if_pos h2, ih]
        · rw [if_neg h2, if_neg h2, ih]

/-- C7 counterexample: a message list containing a system message (with empty
content) for which the output does not begin with "System: " — the code keys
the header on the accumulated system content being non-empty, not on a system
message being present. -/
theorem c7_counterexample :
    (∃ m ∈ [(⟨"system".toList, []⟩ : Message)], m.role = "system".toList) ∧
    ("System: ".toList.isPrefixOf
      (formatPrompt [(⟨"system".toList, []⟩ : Message)])) = false := by
  decide

/-- C7 amended: formatPrompt keeps only system and user content.  If the LAST
system message's content is non-empty (each system message overwrites the
accumulator, so the last one wins), the output is exactly "System: ", that
content, a blank line, then all user contents joined by blank lines in their
original order; and dropping all assistant-role messages never changes the
output. -/
theorem c7_prompt_flattening :
    (∀ msgs : List Message, (collectPrompts msgs [] []).1 ≠ [] →
      formatPrompt msgs =
        "System: ".toList ++ (collectPrompts msgs [] []).1 ++ "\n\n".toList ++
          List.intercalate "\n\n".toList (collectPrompts msgs [] []).2) ∧
    (∀ msgs : List Message,
      formatPrompt (msgs.filter fun m => m.role != "assistant".toList) =
        formatPrompt msgs) := by
  constructor
  · intro msgs hsys
    simp only [formatPrompt]
    rw [if_pos hsys]
    by_cases hu : (collectPrompts msgs [] []).2 = []
    · rw [if_neg (not_not_intro hu), hu]
      have hnil : List.intercalate "\n\n".toList ([] : List GoStr) = [] := rfl
      rw [hnil, List.append_nil]
    · rw [if_pos hu]
  · intro msgs
    have key := collectPrompts_filter_assistant msgs [] []
    simp only [formatPrompt]
    rw [key]

/-- C7 witness: a system message, two user messages and an interleaved
assistant message flatten to the expected prompt, and removing the assistant
message leaves the prompt unchanged. -/
theorem c7_prompt_flattening_witness :
    formatPrompt [⟨"system".toList, "S".toList⟩, ⟨"user".toList, "u1".toList⟩,
        ⟨"assistant".toList, "a".toList⟩, ⟨"user".toList, "u2".toList⟩] =
      "System: S\n\nu1\n\nu2".toList ∧
    formatPrompt ([⟨"system".toList, "S".toList⟩, ⟨"user".toList, "u1".toList⟩,
        ⟨"assistant".toList, "a".toList⟩,
        ⟨"user".toList, "u2".toList⟩].filter
          fun m => m.role != "assistant".toList) =
      formatPrompt [⟨"system".toList, "S".toList⟩, ⟨"user".toList, "u1".toList⟩,
        ⟨"assistant".toList, "a".toList⟩, ⟨"user".toList, "u2".toList⟩] :=
  ⟨(c7_prompt_flattening.1 _ (by decide)).trans (by decide),
    c7_prompt_flattening.2 _⟩

/-- Helper: one polling iteration with a successful text extraction, as an
explicit equation. -/
theorem monitor_cons_some (last t : GoStr) (pb pb2 : Option Bool)
    (pf : Option GoStr) (rest : List Poll) :
    monitorResponseStream last (⟨some t, pb, pb2, pf⟩ :: rest) =
      (if t ≠ last then [(t, false)] else []) ++
      (match pb with
       | none => []
       | some true => monitorResponseStream (if t ≠ last then t else last) rest
       | some false =>
         match pb2 with
         | none => []
         | some true => monitorResponseStream (if t ≠ last then t else last) rest
         | some false =>
           match pf with
           | some t2 => if t2 ≠ (if t ≠ last then t else last) then [(t2, true)]
             else [([], true)]
           | none => [([], true)]) := rfl

/-- Helper: a polling iteration whose text extraction fails is skipped. -/
theorem monitor_cons_none (last : GoStr) (pb pb2 : Option Bool)
    (pf : Option GoStr) (rest : List Poll) :
    monitorResponseStream last (⟨none, pb, pb2, pf⟩ :: rest) =
      monitorResponseStream last rest := rfl

/-- Helper for C8: trimming a proper, genuine prefix off a non-empty text
leaves a non-empty delta. -/
theorem trimPrefixOf_ne_nil (t last : GoStr) (h1 : t ≠ []) (h2 : t ≠ last) :
    trimPrefixOf t last ≠ [] := by
  unfold trimPrefixOf
  by_cases hp : last.isPrefixOf t = true
  · rw [if_pos hp]
    obtain ⟨s, hs⟩ := List.isPrefixOf_iff_prefix.mp hp
    have hs2 : s ≠ [] := fun h0 => h2 (by rw [← hs, h0, List.append_nil])
    rw [← hs, List.drop_left]
    exact hs2
  · rw [if_neg hp]
    exact h1

/-- Helper for C8: as long as every text extraction that succeeds yields a
non-empty string, the monitor's callback events form an EventChain — each
non-final event's text is non-empty and differs from the previously emitted
text. -/
theorem monitorResponseStream_chain (polls : List Poll)
    (hpolls : ∀ p ∈ polls, p.text ≠ some []) :
    ∀ last : GoStr, EventChain last (monitorResponseStream last polls) := by
  induction polls with
  | nil => intro last; exact EventChain.done last []
  | cons p rest ih =>
    intro last
    have hp : p.text ≠ some [] := hpolls p (List.mem_cons_self p rest)
    have ihr := ih fun q hq => hpolls q (List.mem_cons_of_mem p hq)
    obtain ⟨pt, pb, pb2, pf⟩ := p
    cases pt with
    | none =>
      rw [monitor_cons_none]
      exact ihr last
    | some t =>
      have ht : t ≠ [] := by
        intro h0
        exact hp (by rw [show (⟨some t, pb, pb2, pf⟩ : Poll).text = some t
          from rfl, h0])
      rw [monitor_cons_some]
      by_cases hne : t = last
      · subst hne
        rw [if_neg (not_not_intro rfl), List.nil_append]
        cases pb with
        | none => exact EventChain.nil t
        | some b =>
          cases b with
          | true =>
            show EventChain t
              (monitorResponseStream (if t ≠ t then t else t) rest)
            rw [ite_self]
            exact ihr t
          | false =>
            cases pb2 with
            | none => exact EventChain.nil t
            | some b2 =>
              cases b2 with
              | true =>
                show EventChain t
                  (monitorResponseStream (if t ≠ t then t else t) rest)
                rw [ite_self]
                exact ihr t
              | false =>
                cases pf with
                | none => exact EventChain.done t []
                | some t2 =>
                  show EventChain t (if t2 ≠ (if t ≠ t then t else t) then
                    [(t2, true)] else [([], true)])
                  rw [ite_self]
                  by_cases h2 : t2 ≠ t
                  · rw [if_pos h2]
                    exact EventChain.done t t2
                  · rw [if_neg h2]
                    exact EventChain.done t []
      · rw [if_pos hne, List.singleton_append]
        cases pb with
        | none => exact EventChain.cons last t [] ht hne (EventChain.nil t)
        | some b =>
          cases b with
          | true =>
            show EventChain last ((t, false) ::
              monitorResponseStream (if t ≠ last then t else last) rest)
            rw [if_pos hne]
            exact EventChain.cons last t _ ht hne (ihr t)
          | false =>
            cases pb2 with
            | none => exact EventChain.cons last t [] ht hne (EventChain.nil t)
            | some b2 =>
              cases b2 with
              | true =>
                show EventChain last ((t, false) ::
                  monitorResponseStream (if t ≠ last then t else last) rest)
                rw [if_pos hne]
                exact EventChain.cons last t _ ht hne (ihr t)
              | false =>
                cases pf with
                | none =>
                  exact EventChain.cons last t _ ht hne (EventChain.done t [])
                | some t2 =>
                  show EventChain last ((t, false) ::
                    (if t2 ≠ (if t ≠ last then t else last) then [(t2, true)]
                      else [([], true)]))
                  rw [if_pos hne]
                  by_cases h2 : t2 ≠ t
                  · rw [if_pos h2]
                    exact EventChain.cons last t _ ht hne (EventChain.done t t2)
                  · rw [if_neg h2]
                    exact EventChain.cons last t _ ht hne (EventChain.done t [])

/-- Helper for C8: over an EventChain, the select loop never produces an
empty content delta — the previously emitted text tracked by the handler is
the chain's anchor, so every delta is either a non-empty suffix or a
non-empty corrective resend. -/
theorem handleEvents_chain_ne_nil (prev : GoStr) (events : List (GoStr × Bool))
    (hchain : EventChain prev events) :
    ∀ d : GoStr, Envelope.content d ∈ handleEvents prev events → d ≠ [] := by
  induction hchain with
  | nil prev => intro d hd; simp [handleEvents] at hd
  | done prev c => intro d hd; simp [handleEvents] at hd
  | cons prev c rest hne hdiff hrest ih =>
    intro d hd
    rw [show handleEvents prev ((c, false) :: rest) =
      Envelope.content (trimPrefixOf c prev) :: handleEvents c rest
      from rfl] at hd
    rcases List.mem_cons.mp hd with h | h
    · have h2 : d = trimPrefixOf c prev := by injection h
      rw [h2]
      exact trimPrefixOf_ne_nil c prev hne hdiff
    · exact ih d h

/-- C8 counterexample: an empty-content envelope IS sent to the client when
the scraped text regresses to the empty string — observations "A" then ""
make the monitor emit ("", false), and strings.TrimPrefix("", "A") is "", so
the handler writes a content chunk whose delta is empty during the content
phase. -/
theorem c8_counterexample :
    Envelope.content [] ∈ streamPipeline
      [⟨some "A".toList, some true, none, none⟩,
       ⟨some [], some true, none, none⟩] := by decide

/-- C8 amended: an observation whose extracted text equals the last emitted
text fires no callback and hence yields no content envelope (the polling
iteration is a no-op for the event stream); and no envelope with an empty
content delta is ever sent provided no successful extraction yields the empty
string — the unrestricted claim fails only when the scraped text regresses to
empty (see the counterexample). -/
theorem c8_no_empty_content :
    (∀ (last : GoStr) (p : Poll) (rest : List Poll), p.text = some last →
      (p.busy = some true ∨ (p.busy = some false ∧ p.busy2 = some true)) →
      monitorResponseStream last (p :: rest) =
        monitorResponseStream last rest) ∧
    (∀ polls : List Poll, (∀ p ∈ polls, p.text ≠ some []) →
      ∀ d : GoStr, Envelope.content d ∈ streamPipeline polls → d ≠ []) := by
  constructor
  · intro last p rest hpt hbusy
    obtain ⟨pt, pb, pb2, pf⟩ := p
    have hpt2 : pt = some last := hpt
    subst hpt2
    rcases hbusy with hb | ⟨hb, hb2⟩
    · have hbA : pb = some true := hb
      subst hbA
      rw [monitor_cons_some, if_neg (not_not_intro rfl), List.nil_append]
      show monitorResponseStream (if last ≠ last then last else last) rest = _
      rw [ite_self]
    · have hbA : pb = some false := hb
      have hbB : pb2 = some true := hb2
      subst hbA
      subst hbB
      rw [monitor_cons_some, if_neg (not_not_intro rfl), List.nil_append]
      show monitorResponseStream (if last ≠ last then last else last) rest = _
      rw [ite_self]
  · intro polls hpolls d hd
    have hchain := monitorResponseStream_chain polls hpolls []
    have hpipe : streamPipeline polls =
        Envelope.role :: handleEvents [] (monitorResponseStream [] polls) := rfl
    rw [hpipe] at hd
    rcases List.mem_cons.mp hd with h | h
    · cases h
    · exact handleEvents_chain_ne_nil [] _ hchain d h

/-- C8 witness: an unchanged-text busy observation adds nothing to the event
stream, and a run whose extractions are all non-empty sends no empty-content
chunk. -/
theorem c8_no_empty_content_witness :
    (monitorResponseStream "A".toList
        [⟨some "A".toList, some true, none, none⟩] =
      monitorResponseStream "A".toList []) ∧
    Envelope.content [] ∉
      streamPipeline [⟨some "B".toList, some true, none, none⟩] :=
  ⟨c8_no_empty_content.1 "A".toList ⟨some "A".toList, some true, none, none⟩
      [] rfl (Or.inl rfl),
    fun h => c8_no_empty_content.2
      [⟨some "B".toList, some true, none, none⟩] (by decide) [] h rfl⟩

/-- Helper for C9: the lock-ownership invariant holds initially and is
preserved by every interleaving step. -/
theorem muInv_step {s s2 : MuState} (hs : muInv s) (st : MuStep s s2) :
    muInv s2 := by
  cases st with
  | lock0 h hp =>
    refine ⟨fun _ => rfl, fun hc => ?_⟩
    have h1 := hs.2 hc
    rw [h] at h1
    cases h1
  | lock1 h hp =>
    refine ⟨fun hc => ?_, fun _ => rfl⟩
    have h0 := hs.1 hc
    rw [h] at h0
    cases h0
  | submit0 hp =>
    exact ⟨fun _ => hs.1 (by rw [hp]; rfl), fun hc => hs.2 hc⟩
  | submit1 hp =>
    exact ⟨fun hc => hs.1 hc, fun _ => hs.2 (by rw [hp]; rfl)⟩
  | unlock0 hp =>
    refine ⟨fun hc => Bool.noConfusion hc, fun hc => ?_⟩
    have h1 := hs.2 hc
    have h0 := hs.1 (by rw [hp]; rfl)
    rw [h0] at h1
    exact absurd h1 (by decide)
  | unlock1 hp =>
    refine ⟨fun hc => ?_, fun hc => Bool.noConfusion hc⟩
    have h0 := hs.1 hc
    have h1 := hs.2 (by rw [hp]; rfl)
    rw [h1] at h0
    exact absurd h0 (by decide)

/-- C9: two concurrent requests that share a pooled client are fully
serialized — in every reachable interleaving of their
StreamMessage/StreamCompletion calls, at most one of them is inside its
submit-through-settle critical section, because c.mu is acquired before the
prompt is submitted and only the deferred unlock after monitoring releases
it. -/
theorem c9_mutual_exclusion (s : MuState) (h : muReachable s) :
    ¬ (inCritical s.phase0 = true ∧ inCritical s.phase1 = true) := by
  have h2 : Relation.ReflTransGen MuStep muInit s := h
  clear h
  have hinv : muInv s := by
    induction h2 with
    | refl =>
      exact ⟨fun hc => absurd hc (by decide), fun hc => absurd hc (by decide)⟩
    | tail hsteps st ih => exact muInv_step ih st
  intro hc
  have h0 := hinv.1 hc.1
  have h1 := hinv.2 hc.2
  rw [h0] at h1
  exact absurd h1 (by decide)

/-- C9 witness: a concrete reachable state — the first request has entered
its critical section by taking the lock — satisfies mutual exclusion. -/
theorem c9_mutual_exclusion_witness :
    ¬ (inCritical
        (⟨ReqPhase.submitting, ReqPhase.idle, some 0⟩ : MuState).phase0 =
          true ∧
      inCritical
        (⟨ReqPhase.submitting, ReqPhase.idle, some 0⟩ : MuState).phase1 =
          true) :=
  c9_mutual_exclusion ⟨ReqPhase.submitting, ReqPhase.idle, some 0⟩
    (Relation.ReflTransGen.single (MuStep.lock0 muInit rfl rfl))
